import Mathlib

/-!
# Verification of pyGSFLOW's data-model and file-I/O layer

pyGSFLOW exposes Python objects mirroring GSFLOW's control file, PRMS
parameter files and MODFLOW package files (including the custom
Agricultural Water Use package), plus a builder toolkit (D8
flow-direction / flow-accumulation and NIDP cascade routing over a
raster grid) for deriving stream networks from DEM data.

The repository snapshot available here contains the tutorial notebooks
and CI configuration; the library modules themselves (gsflow/control.py,
gsflow/prms/prms_parameter.py, gsflow/modflow/mfag.py,
gsflow/builder/flow_accumulation.py, gsflow/gsflow.py) are not present.
Every definition below is therefore modelled from the specification and
from the behaviour documented in the notebooks, as marked in each doc
comment.
-/

set_option maxHeartbeats 1000000

namespace PyGsflow

/-- A value stored in a control-file or PRMS parameter record.  PRMS
datatypes are 1 = integer, 2/3 = real, 4 = string; the model collapses
the two real kinds into one rational-valued constructor. -/
inductive ParamValue where
  | int (i : ℤ)
  | real (q : ℚ)
  | str (s : String)
  deriving DecidableEq, Repr

/-- Modelled from the spec: a `ControlRecord` of the GSFLOW control file
holds a record name and its list of values (the control-file parser is
"declarative parsing/serialization of fixed-format text files and
pass-through data containers"). -/
structure ControlRecord where
  name : String
  values : List ParamValue
  deriving DecidableEq, Repr

/-- Modelled from the spec: the `ControlFile` object mirrors GSFLOW's
control file as an ordered collection of named records
(gsflow/control.py is not in the snapshot). -/
structure ControlFile where
  records : List ControlRecord
  deriving DecidableEq, Repr

namespace ControlFile

/-- Modelled from the spec: `get_values(name)` returns the list of
values of the record called `name`, or nothing when no such record
exists. -/
def get_values (c : ControlFile) (name : String) : Option (List ParamValue) :=
  (c.records.find? (fun r => r.name = name)).map (fun r => r.values)

/-- Modelled from the spec: `set_values(name, values)` replaces the
values of the record called `name`; it fails when the record is absent
or the supplied collection is empty (a record must carry at least one
value). -/
def set_values (c : ControlFile) (name : String) (v : List ParamValue) :
    Option ControlFile :=
  if v = [] then none
  else if c.records.any (fun r => r.name = name) then
    some ⟨c.records.map (fun r => if r.name = name then { r with values := v } else r)⟩
  else none

/-- Modelled from the spec: `remove_record(name)` deletes the record
called `name` from the control file. -/
def remove_record (c : ControlFile) (name : String) : ControlFile :=
  ⟨c.records.filter (fun r => ¬ r.name = name)⟩

/-- The list of record names held by the control file. -/
def records_list (c : ControlFile) : List String :=
  c.records.map (fun r => r.name)

end ControlFile

/-- Modelled from the spec: a PRMS parameter record holds a name, its
dimension declarations (dimension name and size), a PRMS datatype code
and the list of values. -/
structure PrmsRecord where
  name : String
  dimensions : List (String × Nat)
  datatype : Nat
  values : List ParamValue
  deriving DecidableEq, Repr

/-- Modelled from the spec: the `PrmsParameters` object mirrors the PRMS
parameter files as an ordered collection of parameter records
(gsflow/prms/prms_parameter.py is not in the snapshot). -/
structure PrmsParameters where
  records : List PrmsRecord
  deriving DecidableEq, Repr

namespace PrmsParameters

/-- Modelled from the spec: `get_values(name)` returns the array of
values of the parameter called `name`, or nothing when the parameter is
absent. -/
def get_values (p : PrmsParameters) (name : String) : Option (List ParamValue) :=
  (p.records.find? (fun r => r.name = name)).map (fun r => r.values)

/-- Modelled from the spec: `set_values(name, values)` replaces the
values of the parameter called `name`; the new collection is well formed
only when its length matches the parameter's declared size, and the call
fails on an absent parameter or a size mismatch. -/
def set_values (p : PrmsParameters) (name : String) (v : List ParamValue) :
    Option PrmsParameters :=
  match p.records.find? (fun r => r.name = name) with
  | none => none
  | some r =>
    if v.length = r.values.length then
      some ⟨p.records.map (fun r => if r.name = name then { r with values := v } else r)⟩
    else none

/-- Modelled from the spec: `remove_record(name)` deletes the parameter
called `name` from the PrmsParameters object. -/
def remove_record (p : PrmsParameters) (name : String) : PrmsParameters :=
  ⟨p.records.filter (fun r => ¬ r.name = name)⟩

/-- The `parameters_list` property: all parameter names in the object. -/
def parameters_list (p : PrmsParameters) : List String :=
  p.records.map (fun r => r.name)

end PrmsParameters

section ListLemmas

variable {α : Type}

/-- Lookup (`find?`) for a different name is unchanged by a name-preserving
update of the records called `name`. -/
theorem find?_map_update (name other : String)
    (getName : α → String) (upd : α → α)
    (hupd : ∀ a, getName (upd a) = getName a)
    (l : List α) (hne : other ≠ name) :
    (l.map (fun a => if getName a = name then upd a else a)).find?
        (fun a => getName a = other)
      = l.find? (fun a => getName a = other) := by
  induction l with
  | nil => rfl
  | cons hd tl ih =>
    simp only [List.map_cons, List.find?_cons]
    by_cases h : getName hd = name
    · rw [if_pos h, hupd hd, h,
        decide_eq_false (fun hh : name = other => hne hh.symm)]
      exact ih
    · rw [if_neg h]
      cases hs : decide (getName hd = other) with
      | true => rfl
      | false => exact ih

/-- Lookup (`find?`) for a different name is unchanged by filtering out the
records called `name`. -/
theorem find?_filter_ne (name other : String)
    (getName : α → String) (l : List α) (hne : other ≠ name) :
    (l.filter (fun a => ¬ getName a = name)).find? (fun a => getName a = other)
      = l.find? (fun a => getName a = other) := by
  induction l with
  | nil => rfl
  | cons hd tl ih =>
    by_cases h : getName hd = name
    · rw [List.filter_cons_of_neg (by simpa using h), List.find?_cons, h,
        decide_eq_false (fun hh : name = other => hne hh.symm)]
      exact ih
    · rw [List.filter_cons_of_pos (by simpa using h), List.find?_cons,
        List.find?_cons]
      cases hs : decide (getName hd = other) with
      | true => rfl
      | false => exact ih

/-- After filtering out the records called `name`, no record with that
name remains. -/
theorem find?_filter_self (name : String) (getName : α → String) (l : List α) :
    (l.filter (fun a => ¬ getName a = name)).find? (fun a => getName a = name)
      = none := by
  induction l with
  | nil => rfl
  | cons hd tl ih =>
    by_cases h : getName hd = name
    · rw [List.filter_cons_of_neg (by simpa using h)]
      exact ih
    · rw [List.filter_cons_of_pos (by simpa using h), List.find?_cons,
        decide_eq_false h]
      exact ih

/-- Lookup (`find?`) after updating the records called `name` to hold new data
returns the updated form of the record previously found. -/
theorem find?_map_update_self (name : String)
    (getName : α → String) (upd : α → α)
    (hupd : ∀ a, getName (upd a) = getName a)
    (l : List α) (r : α)
    (hf : l.find? (fun a => getName a = name) = some r) :
    (l.map (fun a => if getName a = name then upd a else a)).find?
        (fun a => getName a = name)
      = some (upd r) := by
  induction l with
  | nil => simp at hf
  | cons hd tl ih =>
    simp only [List.find?_cons] at hf
    simp only [List.map_cons, List.find?_cons]
    by_cases h : getName hd = name
    · rw [decide_eq_true h] at hf
      rw [if_pos h, hupd hd, h, decide_eq_true rfl]
      simp only [Option.some.injEq] at hf ⊢
      rw [hf]
    · rw [decide_eq_false h] at hf
      rw [if_neg h]
      cases hs : decide (getName hd = name) with
      | true => exact absurd (of_decide_eq_true hs) h
      | false => exact ih hf

end ListLemmas

section GetSetRemove

/-- A small control file used to instantiate the record theorems: the
records mirror the tutorial's `csv_output_file` and `modflow_name`
control records. -/
def exampleControl : ControlFile :=
  ⟨[⟨"csv_output_file", [ParamValue.str "gsflow.csv"]⟩,
    ⟨"modflow_name", [ParamValue.str "saghen.nam"]⟩]⟩

/-- A small PRMS parameter set used to instantiate the record theorems:
the records mirror the tutorial's `ssr2gw_rate` parameter plus the
`nhru` dimension-like record. -/
def examplePrms : PrmsParameters :=
  ⟨[⟨"ssr2gw_rate", [("nhru", 2)], 3, [ParamValue.real 1, ParamValue.real 2]⟩,
    ⟨"nhru", [("one", 1)], 1, [ParamValue.int 2]⟩]⟩

/-- Claim C6: for every record name present in a `ControlFile` or a
`PrmsParameters` object and every well-formed collection of values `v`,
`get_values(name)` immediately after `set_values(name, v)` returns
exactly `v`, and the values of every other record are unchanged by the
`set_values` call. -/
theorem set_values_get_values_frame
    (c : ControlFile) (p : PrmsParameters) (name : String)
    (v : List ParamValue) :
    (∀ c', c.set_values name v = some c' →
      c'.get_values name = some v ∧
        ∀ other, other ≠ name → c'.get_values other = c.get_values other) ∧
    (∀ p', p.set_values name v = some p' →
      p'.get_values name = some v ∧
        ∀ other, other ≠ name → p'.get_values other = p.get_values other) := by
  constructor
  · intro c' hset
    rw [ControlFile.set_values] at hset
    by_cases hv : v = []
    · rw [if_pos hv] at hset
      exact absurd hset (by simp)
    rw [if_neg hv] at hset
    by_cases hany : c.records.any (fun r => r.name = name)
    · rw [if_pos hany] at hset
      obtain ⟨r, _, hr⟩ := List.any_eq_true.mp hany
      have hfind : c.records.find? (fun r => decide (r.name = name)) |>.isSome := by
        rw [List.find?_isSome]
        exact ⟨r, ‹r ∈ c.records›, hr⟩
      obtain ⟨r0, hr0⟩ := Option.isSome_iff_exists.mp hfind
      have hc' : c' = ⟨c.records.map
          (fun r => if r.name = name then { r with values := v } else r)⟩ := by
        exact (Option.some.injEq _ _ ▸ hset).symm
      subst hc'
      constructor
      · rw [ControlFile.get_values,
          find?_map_update_self name (fun r => r.name)
            (fun r => { r with values := v }) (fun _ => rfl) c.records r0 hr0]
        rfl
      · intro other hother
        rw [ControlFile.get_values, ControlFile.get_values,
          find?_map_update name other (fun r => r.name)
            (fun r => { r with values := v }) (fun _ => rfl) c.records hother]
    · rw [if_neg hany] at hset
      exact absurd hset (by simp)
  · intro p' hset
    rw [PrmsParameters.set_values] at hset
    cases hfind : p.records.find? (fun r => decide (r.name = name)) with
    | none => rw [hfind] at hset; exact absurd hset (by simp)
    | some r0 =>
      rw [hfind] at hset
      dsimp only at hset
      by_cases hlen : v.length = r0.values.length
      · rw [if_pos hlen] at hset
        have hp' : p' = ⟨p.records.map
            (fun r => if r.name = name then { r with values := v } else r)⟩ := by
          exact (Option.some.injEq _ _ ▸ hset).symm
        subst hp'
        constructor
        · rw [PrmsParameters.get_values,
            find?_map_update_self name (fun r => r.name)
              (fun r => { r with values := v }) (fun _ => rfl) p.records r0 hfind]
          rfl
        · intro other hother
          rw [PrmsParameters.get_values, PrmsParameters.get_values,
            find?_map_update name other (fun r => r.name)
              (fun r => { r with values := v }) (fun _ => rfl) p.records hother]
      · rw [if_neg hlen] at hset
        exact absurd hset (by simp)

/-- Witness for claim C6: on the concrete tutorial-style objects, setting
`csv_output_file` (resp. `ssr2gw_rate`) and reading it back returns the
new values, and the other record is untouched. -/
theorem set_values_get_values_frame_witness :
    ∃ c' p',
      exampleControl.set_values "csv_output_file"
          [ParamValue.str "gsflow_example.csv"] = some c' ∧
      examplePrms.set_values "ssr2gw_rate"
          [ParamValue.real 3, ParamValue.real 4] = some p' ∧
      c'.get_values "csv_output_file" = some [ParamValue.str "gsflow_example.csv"] ∧
      c'.get_values "modflow_name" = exampleControl.get_values "modflow_name" ∧
      p'.get_values "ssr2gw_rate" = some [ParamValue.real 3, ParamValue.real 4] ∧
      p'.get_values "nhru" = examplePrms.get_values "nhru" := by
  refine ⟨⟨[⟨"csv_output_file", [ParamValue.str "gsflow_example.csv"]⟩,
    ⟨"modflow_name", [ParamValue.str "saghen.nam"]⟩]⟩,
    ⟨[⟨"ssr2gw_rate", [("nhru", 2)], 3, [ParamValue.real 3, ParamValue.real 4]⟩,
      ⟨"nhru", [("one", 1)], 1, [ParamValue.int 2]⟩]⟩, ?_, ?_, ?_, ?_, ?_, ?_⟩
  · rfl
  · rfl
  · exact ((set_values_get_values_frame exampleControl examplePrms
      "csv_output_file" [ParamValue.str "gsflow_example.csv"]).1 _ rfl).1
  · exact ((set_values_get_values_frame exampleControl examplePrms
      "csv_output_file" [ParamValue.str "gsflow_example.csv"]).1 _ rfl).2
      "modflow_name" (by decide)
  · exact ((set_values_get_values_frame exampleControl examplePrms
      "ssr2gw_rate" [ParamValue.real 3, ParamValue.real 4]).2 _ rfl).1
  · exact ((set_values_get_values_frame exampleControl examplePrms
      "ssr2gw_rate" [ParamValue.real 3, ParamValue.real 4]).2 _ rfl).2
      "nhru" (by decide)

/-- Claim C7: `remove_record(name)` on a `ControlFile` or a
`PrmsParameters` object removes exactly the record called `name`: after
the call `get_values(name)` no longer returns it, the name is absent
from the record/parameter list, and the values of every other record are
unchanged. -/
theorem remove_record_removes_exactly
    (c : ControlFile) (p : PrmsParameters) (name : String) :
    ((c.remove_record name).get_values name = none ∧
      name ∉ (c.remove_record name).records_list ∧
      ∀ other, other ≠ name →
        (c.remove_record name).get_values other = c.get_values other) ∧
    ((p.remove_record name).get_values name = none ∧
      name ∉ (p.remove_record name).parameters_list ∧
      ∀ other, other ≠ name →
        (p.remove_record name).get_values other = p.get_values other) := by
  refine ⟨⟨?_, ?_, ?_⟩, ⟨?_, ?_, ?_⟩⟩
  · rw [ControlFile.get_values, ControlFile.remove_record]
    dsimp only
    rw [find?_filter_self name (fun r : ControlRecord => r.name) c.records]
    rfl
  · rw [ControlFile.records_list, ControlFile.remove_record]
    intro hmem
    obtain ⟨r, hr, hname⟩ := List.mem_map.mp hmem
    have := List.of_mem_filter hr
    simp only [decide_not, Bool.not_eq_true', decide_eq_false_iff_not] at this
    exact this hname
  · intro other hother
    rw [ControlFile.get_values, ControlFile.get_values, ControlFile.remove_record,
      find?_filter_ne name other (fun r => r.name) c.records hother]
  · rw [PrmsParameters.get_values, PrmsParameters.remove_record]
    dsimp only
    rw [find?_filter_self name (fun r : PrmsRecord => r.name) p.records]
    rfl
  · rw [PrmsParameters.parameters_list, PrmsParameters.remove_record]
    intro hmem
    obtain ⟨r, hr, hname⟩ := List.mem_map.mp hmem
    have := List.of_mem_filter hr
    simp only [decide_not, Bool.not_eq_true', decide_eq_false_iff_not] at this
    exact this hname
  · intro other hother
    rw [PrmsParameters.get_values, PrmsParameters.get_values,
      PrmsParameters.remove_record,
      find?_filter_ne name other (fun r => r.name) p.records hother]

/-- Witness for claim C7: removing `csv_output_file` (resp. `ssr2gw_rate`)
from the concrete tutorial-style objects removes exactly that record. -/
theorem remove_record_removes_exactly_witness :
    (exampleControl.remove_record "csv_output_file").get_values
        "csv_output_file" = none ∧
    "csv_output_file" ∉
      (exampleControl.remove_record "csv_output_file").records_list ∧
    (exampleControl.remove_record "csv_output_file").get_values "modflow_name"
      = exampleControl.get_values "modflow_name" ∧
    (examplePrms.remove_record "ssr2gw_rate").get_values "ssr2gw_rate" = none ∧
    "ssr2gw_rate" ∉ (examplePrms.remove_record "ssr2gw_rate").parameters_list ∧
    (examplePrms.remove_record "ssr2gw_rate").get_values "nhru"
      = examplePrms.get_values "nhru" := by
  have hc := (remove_record_removes_exactly exampleControl examplePrms
    "csv_output_file").1
  have hp := (remove_record_removes_exactly exampleControl examplePrms
    "ssr2gw_rate").2
  exact ⟨hc.1, hc.2.1, hc.2.2 "modflow_name" (by decide),
    hp.1, hp.2.1, hp.2.2 "nhru" (by decide)⟩

end GetSetRemove

section Builder

/-- The `filterMap` of an injective-on-members partial function preserves
`Nodup`. -/
theorem nodup_filterMap_on {α β : Type} (g : α → Option β) (l : List α)
    (hl : l.Nodup)
    (hinj : ∀ a ∈ l, ∀ a' ∈ l, ∀ b, g a = some b → g a' = some b → a = a') :
    (l.filterMap g).Nodup := by
  induction l with
  | nil => exact List.nodup_nil
  | cons hd tl ih =>
    rw [List.filterMap_cons]
    have hndtl : tl.Nodup := hl.of_cons
    have hhd : hd ∉ tl := (List.nodup_cons.mp hl).1
    have ih' := ih hndtl (fun a ha a' ha' b h h' =>
      hinj a (List.mem_cons_of_mem _ ha) a' (List.mem_cons_of_mem _ ha') b h h')
    cases hg : g hd with
    | none => exact ih'
    | some b =>
      rw [List.nodup_cons]
      refine ⟨fun hmem => ?_, ih'⟩
      obtain ⟨a, ha, hga⟩ := List.mem_filterMap.mp hmem
      exact hhd (hinj hd (List.mem_cons_self _ _) a (List.mem_cons_of_mem _ ha) b
        hg hga ▸ ha)

/-- Modelled from the spec: the `FlowAccumulation` builder object
(gsflow/builder/flow_accumulation.py is not in the snapshot) stores the
resampled DEM, the two arrays of cell-center coordinates and the
`hru_type` array (0 = inactive, 1 = land, 2 = lake, 3 = swale), all of
dimension `nrow × ncol`.  DEM values are modelled as integers (a fixed
discretization of the sampled elevations); cell centers as rationals. -/
structure FlowAccumulation where
  dem : List (List ℤ)
  xcenters : List (List ℚ)
  ycenters : List (List ℚ)
  hru_type : List (List ℕ)

namespace FlowAccumulation

/-- Number of raster rows. -/
def nrow (fa : FlowAccumulation) : ℕ := fa.dem.length

/-- Number of raster columns. -/
def ncol (fa : FlowAccumulation) : ℕ := (fa.dem.headD []).length

end FlowAccumulation

/-- Bounds-checked access into a nested-list raster. -/
def cellAt {α : Type} (g : List (List α)) (i j : ℤ) : Option α :=
  if 0 ≤ i ∧ 0 ≤ j then (g.get? i.toNat).bind (fun row => row.get? j.toNat)
  else none

/-- A raster is rectangular with `nr` rows of `nc` entries each. -/
def rectangular {α : Type} (g : List (List α)) (nr nc : ℕ) : Bool :=
  g.length = nr && g.all (fun row => row.length = nc)

/-- Modelled from the spec: the constructor's shape requirement — the
DEM, both cell-center arrays and the `hru_type` array all share the
`nrow × ncol` model-grid dimension. -/
def wellShaped (data : List (List ℤ)) (xc yc : List (List ℚ))
    (hru : List (List ℕ)) : Bool :=
  let nr := data.length
  let nc := (data.headD []).length
  rectangular data nr nc && rectangular xc nr nc && rectangular yc nr nc &&
    rectangular hru nr nc

/-- Modelled from the spec: `FlowAccumulation.__init__` accepts an
`acc_type` keyword of which only `"d8"` is currently supported; any
other value raises an error, and mismatched array shapes are likewise
rejected. -/
def mkFlowAccumulation (data : List (List ℤ)) (xc yc : List (List ℚ))
    (hru : List (List ℕ)) (accType : String := "d8") :
    Except String FlowAccumulation :=
  if accType ≠ "d8" then
    Except.error ("flow accumulation type " ++ accType ++ " not supported")
  else if wellShaped data xc yc hru then
    Except.ok ⟨data, xc, yc, hru⟩
  else
    Except.error "arrays must share the modelgrid shape"

/-- Claim C8: `"d8"` is the only supported flow-accumulation type:
construction with any other `acc_type` fails with an error, while
construction with the default `acc_type` (which is `"d8"`) succeeds on
well-shaped inputs. -/
theorem acc_type_d8_only (data : List (List ℤ)) (xc yc : List (List ℚ))
    (hru : List (List ℕ)) (accType : String) :
    (accType ≠ "d8" →
      ∃ msg, mkFlowAccumulation data xc yc hru accType = Except.error msg) ∧
    (wellShaped data xc yc hru = true →
      (mkFlowAccumulation data xc yc hru).isOk = true ∧
      mkFlowAccumulation data xc yc hru
        = mkFlowAccumulation data xc yc hru "d8") := by
  constructor
  · intro hne
    refine ⟨"flow accumulation type " ++ accType ++ " not supported", ?_⟩
    rw [mkFlowAccumulation, if_pos hne]
  · intro hws
    refine ⟨?_, rfl⟩
    rw [mkFlowAccumulation, if_neg (by simp), if_pos hws]
    rfl

/-- Witness for claim C8: on a concrete well-shaped 2×2 input the `"dinf"`
type is rejected and the default construction succeeds. -/
theorem acc_type_d8_only_witness :
    ("dinf" : String) ≠ "d8" ∧
    wellShaped [[1, 2], [3, 4]] [[0, 1], [0, 1]] [[1, 1], [0, 0]]
      [[1, 1], [1, 1]] = true ∧
    (∃ msg, mkFlowAccumulation [[1, 2], [3, 4]] [[0, 1], [0, 1]]
      [[1, 1], [0, 0]] [[1, 1], [1, 1]] "dinf" = Except.error msg) ∧
    (mkFlowAccumulation [[1, 2], [3, 4]] [[0, 1], [0, 1]] [[1, 1], [0, 0]]
      [[1, 1], [1, 1]]).isOk = true := by
  have h := acc_type_d8_only [[1, 2], [3, 4]] [[0, 1], [0, 1]]
    [[1, 1], [0, 0]] [[1, 1], [1, 1]] "dinf"
  exact ⟨by decide, by decide, h.1 (by decide), (h.2 (by decide)).1⟩

namespace FlowAccumulation

/-- The eight D8 neighbor offsets (row offset, column offset). -/
def offsets : List (ℤ × ℤ) :=
  [(-1, -1), (-1, 0), (-1, 1), (0, -1), (0, 1), (1, -1), (1, 0), (1, 1)]

/-- The DEM value at a cell, when the cell lies on the raster. -/
def demAt (fa : FlowAccumulation) (i j : ℤ) : Option ℤ := cellAt fa.dem i j

/-- A cell is active when it lies on the raster and its `hru_type` is
nonzero (1 = land, 2 = lake, 3 = swale; 0 = inactive). -/
def activeAt (fa : FlowAccumulation) (i j : ℤ) : Bool :=
  match cellAt fa.hru_type i j with
  | some t => t ≠ 0
  | none => false

/-- Modelled from the spec: the squared-descent measure used to compare
the eight D8 descent directions.  The descent rate toward a lower
neighbor is `drop / dist` with `dist = 1` for cardinal moves and
`dist = √2` for diagonal moves; comparing `2·drop²/dist²` (an integer:
`2·drop²` cardinal, `drop²` diagonal) orders positive drops exactly as
the irrational descent rates do. -/
def descentMeasure (drop : ℤ) (o : ℤ × ℤ) : ℤ :=
  if o.1 = 0 ∨ o.2 = 0 then 2 * (drop * drop) else drop * drop

/-- The list of offsets whose target cell is on the raster and strictly
lower than the cell at `(i, j)`. -/
def lowerNeighbors (fa : FlowAccumulation) (i j : ℤ) : List (ℤ × ℤ) :=
  match fa.demAt i j with
  | none => []
  | some z0 =>
    offsets.filter (fun o =>
      match fa.demAt (i + o.1) (j + o.2) with
      | some z => z < z0
      | none => false)

/-- The squared-descent measure from cell `(i, j)` along offset `o`. -/
def cellMeasure (fa : FlowAccumulation) (i j : ℤ) (o : ℤ × ℤ) : ℤ :=
  match fa.demAt i j, fa.demAt (i + o.1) (j + o.2) with
  | some z0, some z => descentMeasure (z0 - z) o
  | _, _ => 0

/-- Modelled from the spec: the D8 flow direction of a cell.  For an
active cell the direction is the neighbor offset of steepest descent
among the strictly lower on-raster neighbors (none when no neighbor is
lower); inactive or off-raster cells receive no direction. -/
def flow_direction_cell (fa : FlowAccumulation) (i j : ℤ) : Option (ℤ × ℤ) :=
  if fa.activeAt i j then (fa.lowerNeighbors i j).argmax (fa.cellMeasure i j)
  else none

end FlowAccumulation

/-- Claim C2: every active raster cell with at least one strictly lower
neighbor is assigned exactly one D8 flow direction; the assigned
direction points to a strictly lower neighbor whose descent measure is
maximal among the eight neighbors (steepest descent), and no second
direction is ever assigned to the cell. -/
theorem flow_direction_steepest_descent (fa : FlowAccumulation) (i j : ℤ)
    (hact : fa.activeAt i j = true)
    (hlow : fa.lowerNeighbors i j ≠ []) :
    ∃ o, fa.flow_direction_cell i j = some o ∧
      o ∈ fa.lowerNeighbors i j ∧
      (∀ o' ∈ fa.lowerNeighbors i j,
        fa.cellMeasure i j o' ≤ fa.cellMeasure i j o) ∧
      (∀ o', fa.flow_direction_cell i j = some o' → o' = o) := by
  have hfd : fa.flow_direction_cell i j
      = (fa.lowerNeighbors i j).argmax (fa.cellMeasure i j) := by
    rw [FlowAccumulation.flow_direction_cell, if_pos hact]
  cases hh : (fa.lowerNeighbors i j).argmax (fa.cellMeasure i j) with
  | none => exact absurd (List.argmax_eq_none.mp hh) hlow
  | some o =>
    refine ⟨o, hfd.trans hh, List.argmax_mem hh, ?_, ?_⟩
    · intro o' ho'
      exact List.le_of_mem_argmax ho' hh
    · intro o' ho'
      have h2 : some o' = some o := ho'.symm.trans (hfd.trans hh)
      exact Option.some.inj h2

namespace FlowAccumulation

/-- Modelled from the spec: a cell is classified as a stream cell when
it is active and its flow-accumulation value is greater than the
user-supplied contributing-area threshold. -/
def isStreamCell (fa : FlowAccumulation) (faArr : List (List ℚ))
    (threshold : ℚ) (i j : ℤ) : Bool :=
  fa.activeAt i j &&
    (match cellAt faArr i j with
     | some v => threshold < v
     | none => false)

/-- Row-major enumeration of all raster cells. -/
def cellList (fa : FlowAccumulation) : List (ℤ × ℤ) :=
  (List.range fa.nrow).flatMap
    (fun i : ℕ => (List.range fa.ncol).map (fun j : ℕ => ((i : ℤ), (j : ℤ))))

/-- Row-major enumeration of the stream cells. -/
def streamCellList (fa : FlowAccumulation) (faArr : List (List ℚ))
    (threshold : ℚ) : List (ℤ × ℤ) :=
  fa.cellList.filter (fun c => fa.isStreamCell faArr threshold c.1 c.2)

/-- Modelled from the spec: the reach slope computed from cell-center
information — the squared DEM drop toward the cell's D8 downstream
neighbor divided by the squared distance between the two cell centers (a
rational encoding of the descent rate; the flow-direction array is
modelled as per-cell neighbor offsets).  The slope cannot be calculated
(`none`) when the cell has no recorded flow direction, a neighbor off
the raster, or coincident cell centers. -/
def rawSlope (fa : FlowAccumulation) (fdir : List (List (ℤ × ℤ)))
    (i j : ℤ) : Option ℚ :=
  match cellAt fdir i j, fa.demAt i j with
  | some o, some z0 =>
    match fa.demAt (i + o.1) (j + o.2), cellAt fa.xcenters i j,
        cellAt fa.ycenters i j, cellAt fa.xcenters (i + o.1) (j + o.2),
        cellAt fa.ycenters (i + o.1) (j + o.2) with
    | some z1, some x0, some y0, some x1, some y1 =>
      let d2 : ℚ := (x1 - x0) ^ 2 + (y1 - y0) ^ 2
      if d2 = 0 then none else some (((z0 - z1 : ℤ) : ℚ) ^ 2 / d2)
    | _, _, _, _, _ => none
  | _, _ => none

end FlowAccumulation

/-- Clamp a slope value into the closed interval `[minS, maxS]`. -/
def clampSlope (minS maxS x : ℚ) : ℚ := max minS (min maxS x)

/-- Modelled from the spec: the `_StreamsObj` returned by
`make_streams`, restricted to the attributes the claims mention.  The
per-cell arrays `iseg`, `ireach` and `slope` are modelled as maps from
cell coordinates. -/
structure StreamsObj where
  iseg : ℤ × ℤ → ℕ
  ireach : ℤ × ℤ → ℕ
  slope : ℤ × ℤ → ℚ

namespace FlowAccumulation

/-- Modelled from the spec: `make_streams(fdir_array, fa_array,
threshold)` classifies stream cells by the accumulation threshold and
returns a streams object in which every stream cell carries a positive
segment number and a positive reach number (the snapshot lacks the
segment-routing code, so the model gives each stream cell a distinct
segment with a single reach), and a reach slope computed from cell
centers, defaulted to `default_slope` when it cannot be calculated and
clamped into `[min_slope, max_slope]`; non-stream cells carry zeros.
Defaults: `default_slope = 0.001`, `min_slope = 0.0001`,
`max_slope = 1`. -/
def make_streams (fa : FlowAccumulation) (fdir : List (List (ℤ × ℤ)))
    (faArr : List (List ℚ)) (threshold : ℚ)
    (default_slope : ℚ := 1 / 1000) (min_slope : ℚ := 1 / 10000)
    (max_slope : ℚ := 1) : StreamsObj :=
  let cells := fa.streamCellList faArr threshold
  { iseg := fun c => if c ∈ cells then cells.indexOf c + 1 else 0
    ireach := fun c => if c ∈ cells then 1 else 0
    slope := fun c =>
      if c ∈ cells then
        clampSlope min_slope max_slope
          ((fa.rawSlope fdir c.1 c.2).getD default_slope)
      else 0 }

/-- Membership in the row-major cell enumeration is exactly being on the
raster. -/
theorem mem_cellList_iff (fa : FlowAccumulation) (i j : ℤ) :
    (i, j) ∈ fa.cellList ↔
      0 ≤ i ∧ i < (fa.nrow : ℤ) ∧ 0 ≤ j ∧ j < (fa.ncol : ℤ) := by
  rw [cellList]
  constructor
  · intro h
    obtain ⟨i', hi', h2⟩ := List.mem_flatMap.mp h
    obtain ⟨j', hj', h3⟩ := List.mem_map.mp h2
    rw [List.mem_range] at hi' hj'
    simp only [Prod.mk.injEq] at h3
    obtain ⟨h4, h5⟩ := h3
    subst h4; subst h5
    refine ⟨by omega, by omega, by omega, by omega⟩
  · rintro ⟨h1, h2, h3, h4⟩
    refine List.mem_flatMap.mpr ⟨i.toNat, ?_, List.mem_map.mpr ⟨j.toNat, ?_, ?_⟩⟩
    · rw [List.mem_range]; omega
    · rw [List.mem_range]; omega
    · simp only [Prod.mk.injEq]
      constructor <;> omega

/-- Membership in the stream-cell list is exactly being an on-raster
stream cell. -/
theorem mem_streamCellList_iff (fa : FlowAccumulation)
    (faArr : List (List ℚ)) (threshold : ℚ) (i j : ℤ) :
    (i, j) ∈ fa.streamCellList faArr threshold ↔
      ((i, j) ∈ fa.cellList ∧ fa.isStreamCell faArr threshold i j = true) := by
  rw [streamCellList, List.mem_filter]

end FlowAccumulation

/-- Claim C1: `make_streams(fdir_array, fa_array, threshold)` with only
its required parameters classifies an active raster cell as a stream
cell exactly when its flow-accumulation value is greater than the
threshold; every stream cell receives a nonzero `iseg` and a nonzero
`ireach` in the returned stream object, and every non-stream cell
receives zero in both. -/
theorem make_streams_classification (fa : FlowAccumulation)
    (fdir : List (List (ℤ × ℤ))) (faArr : List (List ℚ)) (threshold : ℚ)
    (i j : ℤ)
    (hb : 0 ≤ i ∧ i < (fa.nrow : ℤ) ∧ 0 ≤ j ∧ j < (fa.ncol : ℤ)) :
    (fa.activeAt i j = true →
      (fa.isStreamCell faArr threshold i j = true ↔
        ∃ v, cellAt faArr i j = some v ∧ threshold < v)) ∧
    (fa.isStreamCell faArr threshold i j = true →
      (fa.make_streams fdir faArr threshold).iseg (i, j) ≠ 0 ∧
      (fa.make_streams fdir faArr threshold).ireach (i, j) ≠ 0) ∧
    (fa.isStreamCell faArr threshold i j = false →
      (fa.make_streams fdir faArr threshold).iseg (i, j) = 0 ∧
      (fa.make_streams fdir faArr threshold).ireach (i, j) = 0) := by
  have hmemcell : (i, j) ∈ fa.cellList := (fa.mem_cellList_iff i j).mpr hb
  refine ⟨?_, ?_, ?_⟩
  · intro hact
    rw [FlowAccumulation.isStreamCell, hact, Bool.true_and]
    cases hcell : cellAt faArr i j with
    | none => simp
    | some v =>
      simp only [decide_eq_true_eq, Option.some.injEq]
      constructor
      · intro hlt
        exact ⟨v, rfl, hlt⟩
      · rintro ⟨v', hv', hlt⟩
        exact hv' ▸ hlt
  · intro hstream
    have hmem : (i, j) ∈ fa.streamCellList faArr threshold :=
      (fa.mem_streamCellList_iff faArr threshold i j).mpr ⟨hmemcell, hstream⟩
    rw [FlowAccumulation.make_streams]
    exact ⟨by simp [hmem], by simp [hmem]⟩
  · intro hstream
    have hmem : (i, j) ∉ fa.streamCellList faArr threshold := by
      intro hmem
      have := ((fa.mem_streamCellList_iff faArr threshold i j).mp hmem).2
      rw [hstream] at this
      exact Bool.false_ne_true this
    rw [FlowAccumulation.make_streams]
    exact ⟨by simp [hmem], by simp [hmem]⟩

/-- Claim C9: every reach slope produced by `make_streams` for a stream
cell lies within the closed interval `[min_slope, max_slope]`; a reach
whose slope cannot be calculated from cell-center information gets the
clamped `default_slope`, which at the default parameter values
(`min_slope = 0.0001`, `max_slope = 1`, `default_slope = 0.001`) is
`0.001` itself; consequently no stream-cell slope is zero or
negative. -/
theorem make_streams_slope_bounds (fa : FlowAccumulation)
    (fdir : List (List (ℤ × ℤ))) (faArr : List (List ℚ))
    (threshold minS maxS defS : ℚ) (i j : ℤ)
    (hb : 0 ≤ i ∧ i < (fa.nrow : ℤ) ∧ 0 ≤ j ∧ j < (fa.ncol : ℤ))
    (hstream : fa.isStreamCell faArr threshold i j = true)
    (hmm : minS ≤ maxS) (hpos : 0 < minS) :
    minS ≤ (fa.make_streams fdir faArr threshold defS minS maxS).slope (i, j) ∧
    (fa.make_streams fdir faArr threshold defS minS maxS).slope (i, j) ≤ maxS ∧
    0 < (fa.make_streams fdir faArr threshold defS minS maxS).slope (i, j) ∧
    (fa.rawSlope fdir i j = none →
      (fa.make_streams fdir faArr threshold defS minS maxS).slope (i, j)
        = clampSlope minS maxS defS) ∧
    (fa.rawSlope fdir i j = none → minS = 1 / 10000 → maxS = 1 →
      defS = 1 / 1000 →
      (fa.make_streams fdir faArr threshold defS minS maxS).slope (i, j)
        = 1 / 1000) := by
  have hmemcell : (i, j) ∈ fa.cellList := (fa.mem_cellList_iff i j).mpr hb
  have hmem : (i, j) ∈ fa.streamCellList faArr threshold :=
    (fa.mem_streamCellList_iff faArr threshold i j).mpr ⟨hmemcell, hstream⟩
  have hslope : (fa.make_streams fdir faArr threshold defS minS maxS).slope (i, j)
      = clampSlope minS maxS ((fa.rawSlope fdir i j).getD defS) := by
    rw [FlowAccumulation.make_streams]
    simp [hmem]
  refine ⟨?_, ?_, ?_, ?_, ?_⟩
  · rw [hslope]; exact le_max_left _ _
  · rw [hslope]; exact max_le hmm (min_le_left _ _)
  · rw [hslope]; exact lt_of_lt_of_le hpos (le_max_left _ _)
  · intro hnone
    rw [hslope, hnone]
    rfl
  · intro hnone h1 h2 h3
    rw [hslope, hnone, h1, h2, h3]
    show clampSlope (1 / 10000) 1 (1 / 1000) = 1 / 1000
    rw [clampSlope]
    norm_num

/-- A concrete 3×3 raster: all cells active, the center cell at height 5
with neighbors 9 except a single outlet of height 1 due east. -/
def exampleFa : FlowAccumulation :=
  { dem := [[9, 9, 9], [9, 5, 1], [9, 9, 9]]
    xcenters := [[0, 50, 100], [0, 50, 100], [0, 50, 100]]
    ycenters := [[100, 100, 100], [50, 50, 50], [0, 0, 0]]
    hru_type := [[1, 1, 1], [1, 1, 1], [1, 1, 1]] }

/-- A flow-accumulation raster for `exampleFa`: the middle row
accumulates toward the eastern outlet. -/
def exampleFaArr : List (List ℚ) := [[0, 0, 0], [1, 2, 8], [0, 0, 0]]

/-- A flow-direction raster for `exampleFa`, modelled as per-cell
neighbor offsets: the middle row flows east (the outlet cell's east
neighbor lies off the raster). -/
def exampleFdir : List (List (ℤ × ℤ)) :=
  [[(0, 0), (0, 0), (0, 0)], [(0, 1), (0, 1), (0, 1)], [(0, 0), (0, 0), (0, 0)]]

/-- Witness for claim C1: with threshold 1 on `exampleFa`, the active cell
`(1, 1)` (accumulation 2) is a stream cell and gets nonzero `iseg` and
`ireach`, while the active cell `(0, 0)` (accumulation 0) is not and
gets zero in both. -/
theorem make_streams_classification_witness :
    exampleFa.isStreamCell exampleFaArr 1 1 1 = true ∧
    exampleFa.isStreamCell exampleFaArr 1 0 0 = false ∧
    (exampleFa.make_streams exampleFdir exampleFaArr 1).iseg (1, 1) ≠ 0 ∧
    (exampleFa.make_streams exampleFdir exampleFaArr 1).ireach (1, 1) ≠ 0 ∧
    (exampleFa.make_streams exampleFdir exampleFaArr 1).iseg (0, 0) = 0 ∧
    (exampleFa.make_streams exampleFdir exampleFaArr 1).ireach (0, 0) = 0 ∧
    (exampleFa.isStreamCell exampleFaArr 1 1 1 = true ↔
      ∃ v, cellAt exampleFaArr 1 1 = some v ∧ 1 < v) := by
  have h1 := make_streams_classification exampleFa exampleFdir exampleFaArr 1 1 1
    ⟨by decide, by decide, by decide, by decide⟩
  have h0 := make_streams_classification exampleFa exampleFdir exampleFaArr 1 0 0
    ⟨by decide, by decide, by decide, by decide⟩
  refine ⟨by decide, by decide, (h1.2.1 (by decide)).1, (h1.2.1 (by decide)).2,
    (h0.2.2 (by decide)).1, (h0.2.2 (by decide)).2, h1.1 (by decide)⟩

/-- Witness for claim C9: on `exampleFa` with the default slope
parameters, the stream cell `(1, 1)` has a positive slope within
`[1/10000, 1]`, and the stream cell `(1, 2)`, whose slope cannot be
calculated (its flow direction leaves the raster), is assigned the
default slope `1/1000`. -/
theorem make_streams_slope_bounds_witness :
    (1 : ℚ) / 10000 ≤ 1 ∧ (0 : ℚ) < 1 / 10000 ∧
    exampleFa.isStreamCell exampleFaArr 1 1 1 = true ∧
    exampleFa.isStreamCell exampleFaArr 1 1 2 = true ∧
    exampleFa.rawSlope exampleFdir 1 2 = none ∧
    0 < (exampleFa.make_streams exampleFdir exampleFaArr 1).slope (1, 1) ∧
    (exampleFa.make_streams exampleFdir exampleFaArr 1).slope (1, 1) ≤ 1 ∧
    (1 : ℚ) / 10000 ≤ (exampleFa.make_streams exampleFdir exampleFaArr 1).slope (1, 1) ∧
    (exampleFa.make_streams exampleFdir exampleFaArr 1).slope (1, 2)
      = 1 / 1000 := by
  have h11 := make_streams_slope_bounds exampleFa exampleFdir exampleFaArr 1
    (1 / 10000) 1 (1 / 1000) 1 1
    ⟨by decide, by decide, by decide, by decide⟩ (by decide)
    (by norm_num) (by norm_num)
  have h12 := make_streams_slope_bounds exampleFa exampleFdir exampleFaArr 1
    (1 / 10000) 1 (1 / 1000) 1 2
    ⟨by decide, by decide, by decide, by decide⟩ (by decide)
    (by norm_num) (by norm_num)
  exact ⟨by norm_num, by norm_num, by decide, by decide, rfl,
    h11.2.2.1, h11.2.1, h11.1, h12.2.2.2.2 rfl rfl rfl rfl⟩

/-- Witness for claim C2: the center cell of `exampleFa` is active, has a
strictly lower neighbor, and its unique steepest-descent direction is
the eastward offset `(0, 1)` toward the height-1 outlet. -/
theorem flow_direction_steepest_descent_witness :
    exampleFa.activeAt 1 1 = true ∧
    exampleFa.lowerNeighbors 1 1 ≠ [] ∧
    (∃ o, exampleFa.flow_direction_cell 1 1 = some o ∧
      o ∈ exampleFa.lowerNeighbors 1 1 ∧
      (∀ o' ∈ exampleFa.lowerNeighbors 1 1,
        exampleFa.cellMeasure 1 1 o' ≤ exampleFa.cellMeasure 1 1 o) ∧
      (∀ o', exampleFa.flow_direction_cell 1 1 = some o' → o' = o)) ∧
    exampleFa.flow_direction_cell 1 1 = some (0, 1) := by
  refine ⟨by decide, by decide,
    flow_direction_steepest_descent exampleFa 1 1 (by decide) (by decide),
    by decide⟩

/-- Row-major decomposition is injective: `a*C + b` with `b < C`
determines `a` and `b`. -/
theorem rowmajor_inj (C a b a' b' : ℕ) (hb : b < C) (hb' : b' < C)
    (h : a * C + b = a' * C + b') : a = a' ∧ b = b' := by
  have hC : 0 < C := lt_of_le_of_lt (Nat.zero_le b) hb
  rw [Nat.mul_comm a C, Nat.mul_comm a' C] at h
  have h1 : (C * a + b) / C = a := by
    rw [Nat.mul_add_div hC, Nat.div_eq_of_lt hb, Nat.add_zero]
  have h2 : (C * a' + b') / C = a' := by
    rw [Nat.mul_add_div hC, Nat.div_eq_of_lt hb', Nat.add_zero]
  have ha : a = a' := by rw [← h1, ← h2, h]
  subst ha
  exact ⟨rfl, by omega⟩

namespace FlowAccumulation

/-- The PRMS hydrologic-response-unit number of a raster cell: row-major
and 1-based, matching the HRU numbering PRMS uses for the cascade
parameters. -/
def hruId (fa : FlowAccumulation) (c : ℤ × ℤ) : ℕ :=
  c.1.toNat * fa.ncol + c.2.toNat + 1

/-- The row-major cell enumeration has no duplicates. -/
theorem cellList_nodup (fa : FlowAccumulation) : fa.cellList.Nodup := by
  rw [cellList, List.nodup_flatMap]
  constructor
  · intro i _
    refine List.Nodup.map ?_ (List.nodup_range _)
    intro a b hab
    simpa using congrArg Prod.snd hab
  · refine (List.pairwise_lt_range _).imp ?_
    intro i i' hlt x hx hx'
    obtain ⟨j, _, rfl⟩ := List.mem_map.mp hx
    obtain ⟨j', _, hj'⟩ := List.mem_map.mp hx'
    have hfst := congrArg Prod.fst hj'
    simp only [Int.natCast_inj] at hfst
    omega

/-- The map `hruId` is injective on the raster cells. -/
theorem hruId_inj_on (fa : FlowAccumulation) (c c' : ℤ × ℤ)
    (hc : c ∈ fa.cellList) (hc' : c' ∈ fa.cellList)
    (h : fa.hruId c = fa.hruId c') : c = c' := by
  obtain ⟨ci, cj⟩ := c
  obtain ⟨ci', cj'⟩ := c'
  obtain ⟨h1, h2, h3, h4⟩ := (fa.mem_cellList_iff ci cj).mp hc
  obtain ⟨h1', h2', h3', h4'⟩ := (fa.mem_cellList_iff ci' cj').mp hc'
  rw [hruId, hruId] at h
  dsimp only at h
  have hcj : cj.toNat < fa.ncol := by omega
  have hcj' : cj'.toNat < fa.ncol := by omega
  have hi := rowmajor_inj fa.ncol ci.toNat cj.toNat ci'.toNat cj'.toNat
    hcj hcj' (by omega)
  simp only [Prod.mk.injEq]
  exact ⟨by omega, by omega⟩

end FlowAccumulation

/-- Modelled from the spec: the `_Cascades` object returned by
`get_cascades`, holding the PRMS cascade parameters (`ncascade`,
`hru_up_id`, `hru_down_id`, `hru_pct_up`, `hru_strmseg_down_id`). -/
structure Cascades where
  ncascade : ℕ
  hru_up_id : List ℕ
  hru_down_id : List ℕ
  hru_pct_up : List ℚ
  hru_strmseg_down_id : List ℕ
  deriving DecidableEq, Repr

namespace FlowAccumulation

/-- Modelled from the spec: the single cascade link contributed by one
cell under NIDP routing — a cell that is not the pour point and has a D8
flow direction toward an active neighbor cascades its whole area
(`hru_pct_up = 1`) to that one downgradient neighbor, recording the
neighbor's stream segment. -/
def cascadeLink (fa : FlowAccumulation) (strm : StreamsObj)
    (pour_point : ℤ × ℤ) (c : ℤ × ℤ) : Option (ℕ × ℕ × ℕ) :=
  if c = pour_point then none
  else
    match fa.flow_direction_cell c.1 c.2 with
    | some o =>
      if fa.activeAt (c.1 + o.1) (c.2 + o.2) then
        some (fa.hruId c, fa.hruId (c.1 + o.1, c.2 + o.2),
          strm.iseg (c.1 + o.1, c.2 + o.2))
      else none
    | none => none

/-- All cascade links of the raster, one per contributing cell in
row-major order. -/
def cascadeLinks (fa : FlowAccumulation) (strm : StreamsObj)
    (pour_point : ℤ × ℤ) : List (ℕ × ℕ × ℕ) :=
  fa.cellList.filterMap (fa.cascadeLink strm pour_point)

/-- Modelled from the spec: `get_cascades` computes the NIDP cascade
routing — many cells may flow into one cell, but each cell flows
downgradient to exactly one neighbor — and packages the links as the
PRMS cascade parameter arrays. -/
def get_cascades (fa : FlowAccumulation) (strm : StreamsObj)
    (pour_point : ℤ × ℤ) : Cascades :=
  { ncascade := (fa.cascadeLinks strm pour_point).length
    hru_up_id := (fa.cascadeLinks strm pour_point).map (fun l => l.1)
    hru_down_id := (fa.cascadeLinks strm pour_point).map (fun l => l.2.1)
    hru_pct_up := (fa.cascadeLinks strm pour_point).map (fun _ => 1)
    hru_strmseg_down_id := (fa.cascadeLinks strm pour_point).map (fun l => l.2.2) }

/-- A cascade link's up identifier is the HRU number of the cell that
contributed the link. -/
theorem cascadeLink_fst (fa : FlowAccumulation) (strm : StreamsObj)
    (pour_point c : ℤ × ℤ) (b : ℕ × ℕ × ℕ)
    (h : fa.cascadeLink strm pour_point c = some b) : b.1 = fa.hruId c := by
  rw [cascadeLink] at h
  by_cases hpp : c = pour_point
  · rw [if_pos hpp] at h
    exact absurd h (by simp)
  rw [if_neg hpp] at h
  cases hfd : fa.flow_direction_cell c.1 c.2 with
  | none =>
    rw [hfd] at h
    exact absurd h (by simp)
  | some o =>
    rw [hfd] at h
    dsimp only at h
    by_cases hac : fa.activeAt (c.1 + o.1) (c.2 + o.2) = true
    · rw [if_pos hac] at h
      have := Option.some.inj h
      rw [← this]
    · rw [if_neg hac] at h
      exact absurd h (by simp)

end FlowAccumulation

/-- The stream object of the running 3×3 example. -/
def exampleStrm : StreamsObj :=
  exampleFa.make_streams exampleFdir exampleFaArr 1

/-- Claim C3: in the cascade routing computed by `get_cascades` (the NIDP
method) each cell flows downgradient to only one neighbor: every HRU
identifier occurs at most once as an `hru_up_id` among the cascade
links; meanwhile a single `hru_down_id` may be the target of many links,
as the concrete example shows. -/
theorem cascades_up_id_unique (fa : FlowAccumulation) (strm : StreamsObj)
    (pour_point : ℤ × ℤ) :
    (fa.get_cascades strm pour_point).hru_up_id.Nodup ∧
    ¬ (exampleFa.get_cascades exampleStrm (1, 2)).hru_down_id.Nodup := by
  constructor
  · show ((fa.cascadeLinks strm pour_point).map (fun l => l.1)).Nodup
    rw [FlowAccumulation.cascadeLinks, List.map_filterMap]
    apply nodup_filterMap_on _ _ (fa.cellList_nodup)
    intro a ha a' ha' b hb hb'
    cases hca : fa.cascadeLink strm pour_point a with
    | none =>
      rw [hca] at hb
      exact absurd hb (by simp)
    | some l =>
      cases hca' : fa.cascadeLink strm pour_point a' with
      | none =>
        rw [hca'] at hb'
        exact absurd hb' (by simp)
      | some l' =>
        rw [hca] at hb
        rw [hca'] at hb'
        have hbl : b = l.1 := (Option.some.inj hb).symm
        have hbl' : b = l'.1 := (Option.some.inj hb').symm
        have h1 := fa.cascadeLink_fst strm pour_point a l hca
        have h2 := fa.cascadeLink_fst strm pour_point a' l' hca'
        exact fa.hruId_inj_on a a' ha ha' (by rw [← h1, ← hbl, hbl', h2])
  · decide

/-- Witness is not required for the universally quantified part, but the
closed second conjunct of `cascades_up_id_unique` already exhibits the
asymmetry on a concrete raster. -/
theorem cascades_up_id_unique_witness :
    (exampleFa.get_cascades exampleStrm (1, 2)).hru_up_id.Nodup ∧
    ¬ (exampleFa.get_cascades exampleStrm (1, 2)).hru_down_id.Nodup := by
  exact ⟨(cascades_up_id_unique exampleFa exampleStrm (1, 2)).1,
    (cascades_up_id_unique exampleFa exampleStrm (1, 2)).2⟩

end Builder

section AgPackage

/-- Modelled from the spec: the OPTIONS block of the MODFLOW-NWT AG
package as exposed through FloPy's `OptionBlock` utility — boolean flags
with their attached counts (`MAXWELLS nummaxwell`,
`IRRIGATION_WELL numirrwells maxcellswell`, `WELLCBC unitcbc`); an unset
flag leaves its counts at zero. -/
structure AgOptions where
  noprint : Bool := false
  irrigation_well : Bool := false
  numirrwells : ℕ := 0
  maxcellswell : ℕ := 0
  maxwells : Bool := false
  nummaxwell : ℕ := 0
  wellcbc : Bool := false
  unitcbc : ℕ := 0
  deriving DecidableEq, Repr

/-- An option block is well formed when the counts of unset flags are
still at their zero defaults. -/
def AgOptions.wf (o : AgOptions) : Prop :=
  (o.irrigation_well = false → o.numirrwells = 0 ∧ o.maxcellswell = 0) ∧
  (o.maxwells = false → o.nummaxwell = 0) ∧
  (o.wellcbc = false → o.unitcbc = 0)

/-- Modelled from the spec: one record of the AG WELL LIST block —
layer, row, column and maximum flux. -/
structure WellRecord where
  k : ℤ
  i : ℤ
  j : ℤ
  flux : ℚ
  deriving DecidableEq, Repr

/-- Modelled from the spec: one record of an AG IRRWELL block with
`maxcellswell = 1` — the dtype shown in the notebook: `wellid`,
`numcell`, `period`, `triggerfact`, `hru_id0`, `dum0`, `eff_fact0`,
`field_fact0`. -/
structure IrrWellRecord where
  wellid : ℤ
  numcell : ℤ
  period : ℚ
  triggerfact : ℚ
  hru_id0 : ℤ
  dum0 : ℤ
  eff_fact0 : ℚ
  field_fact0 : ℚ
  deriving DecidableEq, Repr

/-- Modelled from the spec: the serialized data of a `ModflowAg`
package — the options block, the WELL LIST recarray and the per-stress-
period IRRWELL recarrays (`irrwell[per]` for `per = 0, …, nper-1`). -/
structure ModflowAgData where
  options : AgOptions
  well_list : List WellRecord
  irrwell : List (List IrrWellRecord)
  deriving DecidableEq, Repr

/-- Modelled from the spec: one line of the fixed-format AG package
file, at token level. -/
inductive AgLine where
  | optionsBegin
  | optNoprint
  | optIrrigationWell (numirr maxcells : ℕ)
  | optMaxwells (n : ℕ)
  | optWellcbc (u : ℕ)
  | blockEnd
  | wellListBegin
  | wellEntry (k i j : ℤ) (flux : ℚ)
  | stressPeriodBegin (per : ℕ)
  | irrWellBegin (cnt : ℕ)
  | irrEntry (r : IrrWellRecord)
  deriving DecidableEq, Repr

namespace ModflowAg

/-- Serialize the options block: `OPTIONS`, one line per set flag with
its counts, `END`. -/
def writeOptions (o : AgOptions) : List AgLine :=
  [AgLine.optionsBegin]
    ++ (if o.noprint then [AgLine.optNoprint] else [])
    ++ (if o.irrigation_well then
          [AgLine.optIrrigationWell o.numirrwells o.maxcellswell] else [])
    ++ (if o.maxwells then [AgLine.optMaxwells o.nummaxwell] else [])
    ++ (if o.wellcbc then [AgLine.optWellcbc o.unitcbc] else [])
    ++ [AgLine.blockEnd]

/-- Serialize the WELL LIST block. -/
def writeWellList (ws : List WellRecord) : List AgLine :=
  AgLine.wellListBegin ::
    (ws.map (fun w => AgLine.wellEntry w.k w.i w.j w.flux) ++ [AgLine.blockEnd])

/-- Serialize one stress period's IRRWELL block. -/
def writeIrrBlock (per : ℕ) (rs : List IrrWellRecord) : List AgLine :=
  AgLine.stressPeriodBegin per :: AgLine.irrWellBegin rs.length ::
    (rs.map AgLine.irrEntry ++ [AgLine.blockEnd])

/-- Serialize the IRRWELL blocks of consecutive stress periods starting
at period `per`. -/
def writeIrrBlocksFrom (per : ℕ) : List (List IrrWellRecord) → List AgLine
  | [] => []
  | rs :: rest => writeIrrBlock per rs ++ writeIrrBlocksFrom (per + 1) rest

/-- Modelled from the spec: `ModflowAg.write_file` writes the package —
the options block, then the well list, then one IRRWELL block per
stress period. -/
def write_file (ag : ModflowAgData) : List AgLine :=
  writeOptions ag.options ++ writeWellList ag.well_list ++
    writeIrrBlocksFrom 0 ag.irrwell

/-- Parse option lines into an accumulated `AgOptions` until `END`. -/
def parseOptionLines : List AgLine → AgOptions → Option (AgOptions × List AgLine)
  | AgLine.blockEnd :: rest, acc => some (acc, rest)
  | AgLine.optNoprint :: rest, acc =>
      parseOptionLines rest { acc with noprint := true }
  | AgLine.optIrrigationWell n m :: rest, acc =>
      parseOptionLines rest
        { acc with irrigation_well := true, numirrwells := n, maxcellswell := m }
  | AgLine.optMaxwells n :: rest, acc =>
      parseOptionLines rest { acc with maxwells := true, nummaxwell := n }
  | AgLine.optWellcbc u :: rest, acc =>
      parseOptionLines rest { acc with wellcbc := true, unitcbc := u }
  | _, _ => none

/-- Parse the options block. -/
def parseOptions : List AgLine → Option (AgOptions × List AgLine)
  | AgLine.optionsBegin :: rest => parseOptionLines rest {}
  | _ => none

/-- Parse exactly `n` well entries. -/
def parseWellEntries : ℕ → List AgLine → Option (List WellRecord × List AgLine)
  | 0, rest => some ([], rest)
  | n + 1, AgLine.wellEntry k i j f :: rest =>
      (parseWellEntries n rest).map (fun p => (⟨k, i, j, f⟩ :: p.1, p.2))
  | _ + 1, _ => none

/-- Parse the WELL LIST block, whose length `n` comes from the options
block's `nummaxwell`. -/
def parseWellList (n : ℕ) : List AgLine → Option (List WellRecord × List AgLine)
  | AgLine.wellListBegin :: rest =>
      match parseWellEntries n rest with
      | some (ws, AgLine.blockEnd :: r) => some (ws, r)
      | _ => none
  | _ => none

/-- Parse exactly `n` irrwell entries. -/
def parseIrrEntries : ℕ → List AgLine → Option (List IrrWellRecord × List AgLine)
  | 0, rest => some ([], rest)
  | n + 1, AgLine.irrEntry r :: rest =>
      (parseIrrEntries n rest).map (fun p => (r :: p.1, p.2))
  | _ + 1, _ => none

/-- Parse `n` consecutive stress-period IRRWELL blocks starting at
period `per`. -/
def parseIrrBlocks :
    ℕ → ℕ → List AgLine → Option (List (List IrrWellRecord) × List AgLine)
  | 0, _, rest => some ([], rest)
  | n + 1, per, AgLine.stressPeriodBegin p :: AgLine.irrWellBegin cnt :: rest =>
      if p = per then
        match parseIrrEntries cnt rest with
        | some (rs, AgLine.blockEnd :: rem) =>
            (parseIrrBlocks n (per + 1) rem).map (fun q => (rs :: q.1, q.2))
        | _ => none
      else none
  | _ + 1, _, _ => none

/-- Modelled from the spec: `ModflowAg.load(f, model, nper)` parses the
package file back — the options block, then `nummaxwell` wells, then one
IRRWELL block for each of the `nper` stress periods. -/
def load (nper : ℕ) (ls : List AgLine) : Option ModflowAgData :=
  match parseOptions ls with
  | some (opts, rest) =>
    match parseWellList opts.nummaxwell rest with
    | some (ws, rest2) =>
      match parseIrrBlocks nper 0 rest2 with
      | some (irr, []) => some ⟨opts, ws, irr⟩
      | _ => none
    | _ => none
  | none => none

/-- Parsing a written options block recovers the options exactly. -/
theorem parseOptions_write (o : AgOptions) (rest : List AgLine)
    (hwf : o.wf) :
    parseOptions (writeOptions o ++ rest) = some (o, rest) := by
  obtain ⟨nop, irr, nirr, mcw, maxw, nmw, wcbc, ucbc⟩ := o
  obtain ⟨h1, h2, h3⟩ := hwf
  simp only at h1 h2 h3
  cases nop <;> cases irr <;> cases maxw <;> cases wcbc <;>
    simp_all [writeOptions, parseOptions, parseOptionLines]

/-- Parsing `n` written well entries recovers the list exactly. -/
theorem parseWellEntries_write (ws : List WellRecord) (rest : List AgLine) :
    parseWellEntries ws.length
        (ws.map (fun w => AgLine.wellEntry w.k w.i w.j w.flux) ++ rest)
      = some (ws, rest) := by
  induction ws with
  | nil => rfl
  | cons w tl ih => simp [parseWellEntries, ih]

/-- Parsing a written WELL LIST block recovers the list exactly. -/
theorem parseWellList_write (ws : List WellRecord) (rest : List AgLine) :
    parseWellList ws.length (writeWellList ws ++ rest) = some (ws, rest) := by
  have h := parseWellEntries_write ws (AgLine.blockEnd :: rest)
  simp only [writeWellList, List.cons_append, List.append_assoc,
    List.singleton_append] at h ⊢
  simp [parseWellList, h]

/-- Parsing `n` written irrwell entries recovers the list exactly. -/
theorem parseIrrEntries_write (rs : List IrrWellRecord) (rest : List AgLine) :
    parseIrrEntries rs.length (rs.map AgLine.irrEntry ++ rest)
      = some (rs, rest) := by
  induction rs with
  | nil => rfl
  | cons r tl ih => simp [parseIrrEntries, ih]

/-- Parsing the written stress-period blocks recovers the per-period
lists exactly. -/
theorem parseIrrBlocks_write (bs : List (List IrrWellRecord)) (per : ℕ)
    (rest : List AgLine) :
    parseIrrBlocks bs.length per (writeIrrBlocksFrom per bs ++ rest)
      = some (bs, rest) := by
  induction bs generalizing per rest with
  | nil => rfl
  | cons rs tl ih =>
    have h := parseIrrEntries_write rs
      (AgLine.blockEnd :: (writeIrrBlocksFrom (per + 1) tl ++ rest))
    simp only [writeIrrBlocksFrom, writeIrrBlock, List.cons_append,
      List.append_assoc, List.singleton_append] at h ⊢
    simp [parseIrrBlocks, h, ih]

end ModflowAg

/-- Claim C4: for every `ModflowAg` package constructed from an options
block, a well list and per-stress-period irrwell recarrays, writing with
`write_file` and loading the written file back with `load` for the same
model and the same `nper` recovers a package whose options, well list
and irrwell data equal the original: write followed by load is the
identity on the serialized package data. -/
theorem ag_write_then_load_identity (ag : ModflowAgData) (nper : ℕ)
    (hnper : nper = ag.irrwell.length)
    (hwf : ag.options.wf)
    (hwells : ag.options.nummaxwell = ag.well_list.length) :
    ModflowAg.load nper (ModflowAg.write_file ag) = some ag := by
  subst hnper
  rw [ModflowAg.write_file, ModflowAg.load, List.append_assoc,
    ModflowAg.parseOptions_write ag.options _ hwf]
  dsimp only
  rw [hwells, ModflowAg.parseWellList_write]
  dsimp only
  have h := ModflowAg.parseIrrBlocks_write ag.irrwell 0 []
  rw [List.append_nil] at h
  rw [h]

/-- The notebook's AG example: two wells, two irrigation cells, three
identical stress periods, `MAXWELLS 2`, `IRRIGATION_WELL 2 1`,
`WELLCBC 99`. -/
def exampleAg : ModflowAgData :=
  { options :=
      { irrigation_well := true, numirrwells := 2, maxcellswell := 1
        maxwells := true, nummaxwell := 2, wellcbc := true, unitcbc := 99 }
    well_list :=
      [⟨1, 38, 53, -500⟩, ⟨1, 38, 54, -1000⟩]
    irrwell :=
      List.replicate 3
        [⟨1, 1, -10000000000, 10000000000, 2741, -1, 1, 1 / 2⟩,
         ⟨2, 1, -10000000000, 10000000000, 2743, -1, 1, 1 / 2⟩] }

/-- Witness for claim C4: the write/load roundtrip is the identity on the
notebook's concrete AG package with `nper = 3`. -/
theorem ag_write_then_load_identity_witness :
    (3 : ℕ) = exampleAg.irrwell.length ∧
    exampleAg.options.wf ∧
    exampleAg.options.nummaxwell = exampleAg.well_list.length ∧
    ModflowAg.load 3 (ModflowAg.write_file exampleAg) = some exampleAg := by
  refine ⟨rfl, ⟨by decide, by decide, by decide⟩, rfl, ?_⟩
  exact ag_write_then_load_identity exampleAg 3 rfl
    ⟨by decide, by decide, by decide⟩ rfl

/-- Modelled from the spec: a constructed `ModflowAg` package object —
its data plus the file metadata FloPy attaches (extension, fortran unit
number, file name). -/
structure ModflowAgPackage where
  data : ModflowAgData
  extension : String
  unit_number : ℕ
  file_name : String
  deriving DecidableEq, Repr

/-- Modelled from the spec: the `ModflowAg` constructor's defaults as
the program evidences them.  The AG notebook's recorded default
construction (`ModflowAg(ml, options=..., well_list=..., irrwell=...)`
with neither `extension` nor `unitnumber`) shows
`file_name = sagehen_example.ag` and `unit_number = 37`; the file
extension therefore defaults to `.ag`, the fortran unit number to 37,
and the package file name is the model name with the extension.  (The
docstring's prose "default 69" is contradicted by this recorded run and
is not followed.) -/
def mkModflowAg (modelname : String) (data : ModflowAgData)
    (extension : Option String := none) (unitnumber : Option ℕ := none) :
    ModflowAgPackage :=
  let ext := extension.getD ".ag"
  { data := data
    extension := ext
    unit_number := unitnumber.getD 37
    file_name := modelname ++ ext }

/-- Claim C10, counterexample: the claim asserts that a `ModflowAg`
package constructed without explicit `extension` or `unitnumber`
arguments gets the fortran unit number 69, but the notebook's recorded
default construction of the example package gets unit number 37, so the
conjunction claimed (extension `.ag` and unit number 69) fails on a
concrete input. -/
theorem modflow_ag_unit_number_counterexample :
    ¬ ((mkModflowAg "sagehen_example" exampleAg).extension = ".ag" ∧
       (mkModflowAg "sagehen_example" exampleAg).unit_number = 69) := by
  intro h
  exact absurd h.2 (by decide)

/-- Claim C10, amended: a `ModflowAg` package constructed without
explicit `extension` or `unitnumber` arguments gets the file extension
`.ag` and the fortran unit number 37 (the unit number the notebook's
recorded default construction shows; the docstring's stated default 69
does not match the program). -/
theorem modflow_ag_default_extension_unit (modelname : String)
    (data : ModflowAgData) :
    (mkModflowAg modelname data).extension = ".ag" ∧
    (mkModflowAg modelname data).unit_number = 37 ∧
    (mkModflowAg modelname data).file_name = modelname ++ ".ag" := by
  exact ⟨rfl, rfl, rfl⟩

end AgPackage

section LoadModel

/-- An observable event of the GSFLOW model loading sequence: reading
the control file, reading one PRMS parameter file, or reading the
MODFLOW package files. -/
inductive LoadEvent where
  | control
  | prmsParams (f : String)
  | modflow
  deriving DecidableEq, Repr

/-- Modelled from the spec: the PRMS model object reached as
`gsf.prms`, carrying the parameters built from the parameter files. -/
structure PrmsModel where
  parameters : PrmsParameters
  deriving DecidableEq, Repr

/-- Modelled from the spec: the MODFLOW model object reached as
`gsf.mf` — the name file it was built from and the loaded package
names. -/
structure ModflowModel where
  name_file : String
  packages : List String
  deriving DecidableEq, Repr

/-- Modelled from the spec: the `GsflowModel` composite with its
`control`, `prms` and `mf` attributes. -/
structure GsflowModel where
  control : ControlFile
  prms : PrmsModel
  mf : ModflowModel
  deriving DecidableEq, Repr

/-- Modelled from the spec: the on-disk inputs reachable from a control
file — the parsed control records, the parsed content of each PRMS
parameter file by name, and the MODFLOW model built from a name file. -/
structure GsflowFileSystem where
  controlData : ControlFile
  paramFiles : String → List PrmsRecord
  modflowData : String → ModflowModel

/-- The PRMS parameter file names recorded in the control file's
`param_file` record. -/
def paramFileNames (c : ControlFile) : Option (List String) :=
  (c.get_values "param_file").map (fun vs =>
    vs.filterMap (fun v =>
      match v with
      | ParamValue.str s => some s
      | _ => none))

/-- The MODFLOW name-file name recorded in the control file's
`modflow_name` record. -/
def modflowNamName (c : ControlFile) : Option String :=
  match c.get_values "modflow_name" with
  | some (ParamValue.str s :: _) => some s
  | _ => none

/-- Stage 1: read the control file. -/
def loadControlStage (fs : GsflowFileSystem) : ControlFile × List LoadEvent :=
  (fs.controlData, [LoadEvent.control])

/-- Stage 2: read every PRMS parameter file recorded in the control
file, in order, concatenating their records. -/
def loadPrmsStage (fs : GsflowFileSystem) (files : List String) :
    PrmsParameters × List LoadEvent :=
  (⟨(files.map fs.paramFiles).flatten⟩, files.map LoadEvent.prmsParams)

/-- Stage 3: read the MODFLOW package files named by the control file's
name file. -/
def loadModflowStage (fs : GsflowFileSystem) (nam : String) :
    ModflowModel × List LoadEvent :=
  (fs.modflowData nam, [LoadEvent.modflow])

/-- Modelled from the spec: `GsflowModel.load_from_file(control_file)`
loads the control file first, then every PRMS parameter file it records,
then the MODFLOW package files, and returns the composite model (with
the emitted load-event trace); it fails when the control file lacks the
`param_file` or `modflow_name` records. -/
def load_from_file (fs : GsflowFileSystem) :
    Option (GsflowModel × List LoadEvent) :=
  let s1 := loadControlStage fs
  match paramFileNames s1.1, modflowNamName s1.1 with
  | some files, some nam =>
    let s2 := loadPrmsStage fs files
    let s3 := loadModflowStage fs nam
    some ({ control := s1.1, prms := ⟨s2.1⟩, mf := s3.1 },
      s1.2 ++ s2.2 ++ s3.2)
  | _, _ => none

/-- Claim C5: `GsflowModel.load_from_file(control_file)` loads a GSFLOW
model in a fixed order — first the control file, then every PRMS
parameter file recorded in it (in order), then the MODFLOW package
files — and returns a `GsflowModel` whose `control`, `prms.parameters`
and `mf` attributes hold the objects built from those files. -/
theorem load_from_file_order (fs : GsflowFileSystem) (files : List String)
    (nam : String)
    (hp : paramFileNames fs.controlData = some files)
    (hm : modflowNamName fs.controlData = some nam) :
    ∃ m ev, load_from_file fs = some (m, ev) ∧
      ev = LoadEvent.control ::
        (files.map LoadEvent.prmsParams ++ [LoadEvent.modflow]) ∧
      m.control = fs.controlData ∧
      m.prms.parameters = ⟨(files.map fs.paramFiles).flatten⟩ ∧
      m.mf = fs.modflowData nam := by
  refine ⟨{ control := fs.controlData
            prms := ⟨⟨(files.map fs.paramFiles).flatten⟩⟩
            mf := fs.modflowData nam },
    LoadEvent.control ::
      (files.map LoadEvent.prmsParams ++ [LoadEvent.modflow]),
    ?_, rfl, rfl, rfl, rfl⟩
  rw [load_from_file]
  dsimp only [loadControlStage]
  rw [hp, hm]
  rfl

/-- The Sagehen-style concrete inputs of the tutorial: a control file
recording four parameter files and a name file, parameter files that
each hold one record, and a MODFLOW model with the usual packages. -/
def exampleFs : GsflowFileSystem :=
  { controlData :=
      ⟨[⟨"param_file",
          [ParamValue.str "saghen_new_par_0.params",
           ParamValue.str "saghen_new_par_1.params",
           ParamValue.str "saghen_new_par_2.params",
           ParamValue.str "saghen_new_par_3.params"]⟩,
        ⟨"modflow_name", [ParamValue.str "saghen_new.nam"]⟩,
        ⟨"csv_output_file", [ParamValue.str "gsflow.csv"]⟩]⟩
    paramFiles := fun f =>
      if f = "saghen_new_par_0.params" then
        [⟨"nhru", [("one", 1)], 1, [ParamValue.int 6468]⟩]
      else []
    modflowData := fun nam => ⟨nam, ["DIS", "BAS6", "UPW", "UZF", "SFR"]⟩ }

/-- Witness for claim C5: on the concrete inputs the load runs control →
four parameter files in order → MODFLOW, and fills the model's
attributes from those files. -/
theorem load_from_file_order_witness :
    paramFileNames exampleFs.controlData
      = some ["saghen_new_par_0.params", "saghen_new_par_1.params",
          "saghen_new_par_2.params", "saghen_new_par_3.params"] ∧
    modflowNamName exampleFs.controlData = some "saghen_new.nam" ∧
    ∃ m ev, load_from_file exampleFs = some (m, ev) ∧
      ev = LoadEvent.control ::
        (["saghen_new_par_0.params", "saghen_new_par_1.params",
          "saghen_new_par_2.params", "saghen_new_par_3.params"].map
            LoadEvent.prmsParams ++ [LoadEvent.modflow]) ∧
      m.control = exampleFs.controlData ∧
      m.prms.parameters
        = ⟨(["saghen_new_par_0.params", "saghen_new_par_1.params",
            "saghen_new_par_2.params", "saghen_new_par_3.params"].map
              exampleFs.paramFiles).flatten⟩ ∧
      m.mf = exampleFs.modflowData "saghen_new.nam" := by
  refine ⟨rfl, rfl, ?_⟩
  exact load_from_file_order exampleFs
    ["saghen_new_par_0.params", "saghen_new_par_1.params",
     "saghen_new_par_2.params", "saghen_new_par_3.params"]
    "saghen_new.nam" rfl rfl

end LoadModel

end PyGsflow
